import Mathlib

/-!
Verification of the cs2-backend data-synchronization and event-detection
engine.  The definitions below are a shallow embedding of the JavaScript
services:

* `mergeMatches` embeds `PandaScoreService._updateCache` (the snapshot
  merger built on a JS `Map` seeded from the previously cached list and
  overwritten by the new snapshot, then sorted ascending by `begin_at`);
* `processMatchUpdates` / `processMatch` embed
  `NotificationService.processMatchUpdates` and its helpers
  `check10MinuteReminder`, `checkScoreChange`,
  `sendStatusChangeNotification`;
* `matchesTeam` embeds `NotificationService.matchesTeam`;
* `calculateStandingsFromMatches` embeds
  `TournamentService.calculateStandingsFromMatches`;
* `registerToken` embeds `NotificationService.registerToken`.

JS-specific semantics that matter here are modelled explicitly: `Map`
iteration order (first-insertion order, `set` on an existing key keeps its
position), `Array.prototype.sort` stability (ES2019), falsy defaults
(`x || d`), and plain-object enumeration order for integer-like keys
(ascending numeric order), which governs `Object.values(teamStats)`.
-/

set_option linter.unusedVariables false

/-! ## Data model -/

/-- An opponent team as delivered by the upstream provider. -/
structure Team where
  id : Nat
  name : String
deriving DecidableEq

/-- A match record: the fields of a PandaScore match object that the
engine reads (`id`, `status`, `begin_at`, `opponents[i].opponent`,
`results[i].score`).  `begin_at` is a millisecond timestamp. -/
structure Match where
  id : Nat
  status : String
  begin_at : Int
  opponents : List Team
  results : List Nat
deriving DecidableEq

/-- `match.results?.[i]?.score || 0` — a missing entry (and a falsy score
of `0`) reads as `0`. -/
def scoreAt (m : Match) (i : Nat) : Nat := (m.results[i]?).getD 0

/-- `match.opponents[0]?.opponent?.name || 'Team 1'` — the empty name is
falsy in JS, so it also falls back to the default. -/
def teamName1 (m : Match) : String :=
  match m.opponents[0]? with
  | some t => if t.name = "" then "Team 1" else t.name
  | none => "Team 1"

/-- `match.opponents[1]?.opponent?.name || 'Team 2'`. -/
def teamName2 (m : Match) : String :=
  match m.opponents[1]? with
  | some t => if t.name = "" then "Team 2" else t.name
  | none => "Team 2"

/-- `` `${score1}-${score2}` `` in `checkScoreChange`. -/
def currentScore (m : Match) : String :=
  toString (scoreAt m 0) ++ "-" ++ toString (scoreAt m 1)

/-! ## Redis-hash / set primitives

The notification service keeps its markers in Redis hashes
(`match:statuses`, `match:scores`, `fcm:tokens`) and one set
(`match:reminders`).  A hash is modelled as an association list; `hSet`
replaces in place or appends, `hGet` finds the stored value. -/

/-- `redisClient.client.hSet(key, field, value)`. -/
def hSet [BEq κ] (h : List (κ × α)) (k : κ) (v : α) : List (κ × α) :=
  if h.any (fun p => p.1 == k) then
    h.map (fun p => if p.1 == k then (k, v) else p)
  else h ++ [(k, v)]

/-- `redisClient.client.hGet(key, field)` — `none` models a missing field. -/
def hGet [BEq κ] (h : List (κ × α)) (k : κ) : Option α :=
  (h.find? (fun p => p.1 == k)).map (fun p => p.2)

/-! ## Event detector (NotificationService) -/

/-- One outbound push notification, identified by its template and
arguments (`sendLocalizedNotification(teamNames, messageType, args, ...)`). -/
inductive Event where
  | reminder (matchId : Nat) (team1 team2 : String)
  | matchStarting (matchId : Nat) (team1 team2 : String)
  | matchFinished (matchId : Nat) (winner loser score : String)
  | scoreUpdate (matchId : Nat) (team1 : String) (score1 score2 : Nat) (team2 : String)
deriving DecidableEq

/-- The persisted per-match markers: `match:statuses`, `match:scores`,
`match:reminders`. -/
structure DetectorState where
  statuses : List (Nat × String)
  scores : List (Nat × String)
  reminders : List Nat
deriving DecidableEq

def tenMinutesMs : Int := 10 * 60 * 1000

def fiveMinutesMs : Int := 5 * 60 * 1000

/-- `NotificationService.check10MinuteReminder`: if the match starts
within the next 15 minutes (`0 < timeDiff <= 10min + 5min`) and no
reminder was recorded in the `match:reminders` set, emit the reminder and
add the id to the set (`sAdd`). -/
def check10MinuteReminder (st : DetectorState) (m : Match) (now : Int) :
    DetectorState × List Event :=
  if 0 < m.begin_at - now ∧ m.begin_at - now ≤ tenMinutesMs + fiveMinutesMs then
    if m.id ∈ st.reminders then (st, [])
    else ({ st with reminders := st.reminders ++ [m.id] },
          [Event.reminder m.id (teamName1 m) (teamName2 m)])
  else (st, [])

/-- `NotificationService.checkScoreChange`: emit a score update iff a
previous score string exists and differs from the current one; in every
case store the current score string. -/
def checkScoreChange (st : DetectorState) (m : Match) : DetectorState × List Event :=
  ({ st with scores := hSet st.scores m.id (currentScore m) },
   match hGet st.scores m.id with
   | some prevScore =>
       if prevScore = currentScore m then []
       else [Event.scoreUpdate m.id (teamName1 m) (scoreAt m 0) (scoreAt m 1) (teamName2 m)]
   | none => [])

/-- `NotificationService.sendStatusChangeNotification`: the only two
transitions with messages are `not_started → running` and
`running → finished`; the finished message names `score1 > score2 ?
teamNames[0] : teamNames[1]` as winner. -/
def sendStatusChangeNotification (m : Match) (oldStatus newStatus : String) : List Event :=
  if newStatus = "running" ∧ oldStatus = "not_started" then
    [Event.matchStarting m.id (teamName1 m) (teamName2 m)]
  else if newStatus = "finished" ∧ oldStatus = "running" then
    [Event.matchFinished m.id
      (if scoreAt m 1 < scoreAt m 0 then teamName1 m else teamName2 m)
      (if scoreAt m 1 < scoreAt m 0 then teamName2 m else teamName1 m)
      ("(" ++ toString (scoreAt m 0) ++ "-" ++ toString (scoreAt m 1) ++ ")")]
  else []

/-- Step 2 of the `processMatchUpdates` loop body: compare the stored
status with the current one, notify on a change, store the new status
(also on first observation). -/
def statusStep (st : DetectorState) (m : Match) (prevStatus : Option String) :
    DetectorState × List Event :=
  match prevStatus with
  | some ps =>
      if ps = m.status then (st, [])
      else ({ st with statuses := hSet st.statuses m.id m.status },
            sendStatusChangeNotification m ps m.status)
  | none => ({ st with statuses := hSet st.statuses m.id m.status }, [])

/-- Step 3 of the loop body: score changes are only checked for running
matches. -/
def scoreStep (st : DetectorState) (m : Match) : DetectorState × List Event :=
  if m.status = "running" then checkScoreChange st m else (st, [])

/-- One iteration of the `for (const match of matches)` loop in
`NotificationService.processMatchUpdates`: the previous status is read
first, then the reminder check, the status check and the score check run
in order. -/
def processMatch (st : DetectorState) (m : Match) (now : Int) :
    DetectorState × List Event :=
  ((scoreStep (statusStep (check10MinuteReminder st m now).1 m (hGet st.statuses m.id)).1 m).1,
   (check10MinuteReminder st m now).2
     ++ (statusStep (check10MinuteReminder st m now).1 m (hGet st.statuses m.id)).2
     ++ (scoreStep (statusStep (check10MinuteReminder st m now).1 m (hGet st.statuses m.id)).1 m).2)

/-- `NotificationService.processMatchUpdates(matches)` at time `now`:
fold the loop body over the match list, collecting the notifications in
emission order. -/
def processMatchUpdates (st : DetectorState) (matchList : List Match) (now : Int) :
    DetectorState × List Event :=
  match matchList with
  | [] => (st, [])
  | m :: rest =>
      ((processMatchUpdates (processMatch st m now).1 rest now).1,
       (processMatch st m now).2 ++ (processMatchUpdates (processMatch st m now).1 rest now).2)

/-- A sequence of detector passes: each pass is a snapshot list together
with the wall-clock time of that pass. -/
def runPasses : DetectorState → List (List Match × Int) → DetectorState × List Event
  | st, [] => (st, [])
  | st, (ms, now) :: rest =>
      ((runPasses (processMatchUpdates st ms now).1 rest).1,
       (processMatchUpdates st ms now).2
         ++ (runPasses (processMatchUpdates st ms now).1 rest).2)

/-! Event counting helpers used to state the detector properties. -/

def isReminderFor (id : Nat) : Event → Bool
  | Event.reminder i _ _ => i == id
  | _ => false

def isStartingFor (id : Nat) : Event → Bool
  | Event.matchStarting i _ _ => i == id
  | _ => false

def isFinishedFor (id : Nat) : Event → Bool
  | Event.matchFinished i _ _ _ => i == id
  | _ => false

def isScoreUpdateFor (id : Nat) : Event → Bool
  | Event.scoreUpdate i _ _ _ _ => i == id
  | _ => false

def countReminders (id : Nat) (evs : List Event) : Nat := (evs.filter (isReminderFor id)).length

def countStarting (id : Nat) (evs : List Event) : Nat := (evs.filter (isStartingFor id)).length

def countFinished (id : Nat) (evs : List Event) : Nat := (evs.filter (isFinishedFor id)).length

def countScoreUpdates (id : Nat) (evs : List Event) : Nat :=
  (evs.filter (isScoreUpdateFor id)).length

/-- Winners named by the `MatchFinished` notifications for `id`. -/
def finishedWinners (id : Nat) (evs : List Event) : List String :=
  evs.filterMap (fun e =>
    match e with
    | Event.matchFinished i w _ _ => if i == id then some w else none
    | _ => none)

/-! ## Snapshot merger (PandaScoreService._updateCache) -/

/-- One `matchMap.set(m.id, m)` on the JS `Map` (kept as a list in key
first-insertion order): setting an existing key replaces its value in
place, a new key is appended. -/
def mapSet (acc : List Match) (m : Match) : List Match :=
  if acc.any (fun x => x.id == m.id) then
    acc.map (fun x => if x.id == m.id then m else x)
  else acc ++ [m]

/-- `new Map(existing.map(m => [m.id, m]))` followed by
`newMatches.forEach(m => matchMap.set(m.id, m))` is one fold of `mapSet`
over the concatenation; the result is `Array.from(matchMap.values())`. -/
def buildMatchMap (l : List Match) : List Match := l.foldl mapSet []

/-- Stable insertion into a sorted list: the inserted element goes before
the first element `y` with `le x y`. -/
def insertSorted (le : α → α → Bool) (x : α) : List α → List α
  | [] => [x]
  | y :: ys => if le x y then x :: y :: ys else y :: insertSorted le x ys

/-- A stable sort, modelling `Array.prototype.sort` with a total
comparator (stable per ES2019). -/
def insertionSort (le : α → α → Bool) : List α → List α
  | [] => []
  | x :: xs => insertSorted le x (insertionSort le xs)

/-- The comparator `(a, b) => new Date(a.begin_at) - new Date(b.begin_at)`:
ascending by start timestamp. -/
def leBeginAt (a b : Match) : Bool := decide (a.begin_at ≤ b.begin_at)

/-- The pure merge inside `PandaScoreService._updateCache`: seed a map
from the previously persisted list, overwrite with every newly fetched
match, then sort ascending by `begin_at`. -/
def mergeMatches (existing newMatches : List Match) : List Match :=
  insertionSort leBeginAt (buildMatchMap (existing ++ newMatches))

/-- The persisted `cs2:matches` blob `{ matches, lastUpdate, count }`
(the `matches` field is called `matchList` because `matches` is a Lean
keyword). -/
structure CacheData where
  matchList : List Match
  lastUpdate : Int
  count : Nat
deriving DecidableEq

/-- The engine state a merge cycle touches: the cached blob and the
detector markers. -/
structure ServiceState where
  cache : Option CacheData
  detector : DetectorState
deriving DecidableEq

/-- `PandaScoreService._updateCache(newMatches)` at time `now`: merge
with the previously cached list (empty when the cache is absent), persist
the blob, and run the detector on the reconciled list. -/
def updateCache (st : ServiceState) (newMatches : List Match) (now : Int) :
    ServiceState × List Event :=
  ({ cache := some
       { matchList := mergeMatches (match st.cache with
           | some cd => cd.matchList
           | none => []) newMatches,
         lastUpdate := now,
         count := (mergeMatches (match st.cache with
           | some cd => cd.matchList
           | none => []) newMatches).length },
     detector := (processMatchUpdates st.detector (mergeMatches (match st.cache with
       | some cd => cd.matchList
       | none => []) newMatches) now).1 },
   (processMatchUpdates st.detector (mergeMatches (match st.cache with
     | some cd => cd.matchList
     | none => []) newMatches) now).2)

/-- The tail of `PandaScoreService.fetchLiveMatches` after the HTTP
fetch: `if (matches.length > 0) await this._updateCache(matches)`; an
empty snapshot skips the merge entirely. -/
def fetchLiveMatches (st : ServiceState) (fetched : List Match) (now : Int) :
    ServiceState × List Event :=
  if fetched.length > 0 then updateCache st fetched now else (st, [])

/-! ## Team alias matching (NotificationService.matchesTeam) -/

/-- `favorite.toLowerCase()` — ASCII lowering of every character. -/
def toLowerStr (s : String) : String := String.mk (s.data.map Char.toLower)

/-- `.trim()` — strip leading and trailing whitespace. -/
def trimStr (s : String) : String :=
  String.mk ((s.data.dropWhile Char.isWhitespace).reverse.dropWhile Char.isWhitespace).reverse

/-- `name.toLowerCase().trim()` as computed in `matchesTeam`. -/
def normName (s : String) : String := trimStr (toLowerStr s)

/-- The inline static alias table of `matchesTeam` (canonical key, alias
list).  `\x27` is the apostrophe. -/
def aliases : List (String × List String) :=
  [("navi", ["natus vincere", "na\x27vi", "na\x27vi"]),
   ("faze", ["faze clan"]),
   ("nip", ["ninjas in pyjamas"]),
   ("g2", ["g2 esports"]),
   ("vitality", ["team vitality"]),
   ("mouz", ["mousesports"]),
   ("liquid", ["team liquid"]),
   ("big", ["big clan"]),
   ("spirit", ["team spirit"]),
   ("ence", ["ence esports"])]

/-- `NotificationService.matchesTeam(favorite, teamName)`: falsy guard,
case-insensitive (lower + trim) exact match, then the alias-group scan —
both names must land in the same group (key or alias list). -/
def matchesTeam (favorite teamName : String) : Bool :=
  if favorite = "" ∨ teamName = "" then false
  else if normName favorite = normName teamName then true
  else aliases.any (fun p =>
    (normName favorite == p.1 || p.2.contains (normName favorite)) &&
    (normName teamName == p.1 || p.2.contains (normName teamName)))

/-! ## Standings aggregator (TournamentService.calculateStandingsFromMatches) -/

/-- One value of the `teamStats` accumulator object. -/
structure TeamStats where
  team : Team
  wins : Nat
  losses : Nat
  points : Nat
  matchesPlayed : Nat
deriving DecidableEq

/-- One row of the returned standings array. -/
structure StandingEntry where
  rank : Nat
  team : Team
  wins : Nat
  losses : Nat
  points : Nat
  matchesPlayed : Nat
deriving DecidableEq

/-- `if (!teamStats[t.id]) teamStats[t.id] = { team: t, wins: 0, ... }`. -/
def initTeamStats (acc : List (Nat × TeamStats)) (t : Team) : List (Nat × TeamStats) :=
  if (acc.find? (fun p => p.1 == t.id)).isSome then acc
  else acc ++ [(t.id, ⟨t, 0, 0, 0, 0⟩)]

/-- An in-place field update `teamStats[k].field += n`. -/
def bumpStats (acc : List (Nat × TeamStats)) (k : Nat) (f : TeamStats → TeamStats) :
    List (Nat × TeamStats) :=
  acc.map (fun p => if p.1 == k then (p.1, f p.2) else p)

/-- The body of `matches.forEach` in `calculateStandingsFromMatches`:
skip non-finished matches and matches with a missing opponent, ensure
both teams have entries, bump `matchesPlayed`, then attribute
3 points/1 win and 1 loss to the score winner, or 1 point each on a tie
(missing scores read as 0). -/
def statsStep (acc : List (Nat × TeamStats)) (m : Match) : List (Nat × TeamStats) :=
  if m.status ≠ "finished" then acc
  else
    match m.opponents[0]?, m.opponents[1]? with
    | some team1, some team2 =>
        (fun acc2 =>
          if scoreAt m 1 < scoreAt m 0 then
            bumpStats
              (bumpStats acc2 team1.id (fun s => { s with wins := s.wins + 1, points := s.points + 3 }))
              team2.id (fun s => { s with losses := s.losses + 1 })
          else if scoreAt m 0 < scoreAt m 1 then
            bumpStats
              (bumpStats acc2 team2.id (fun s => { s with wins := s.wins + 1, points := s.points + 3 }))
              team1.id (fun s => { s with losses := s.losses + 1 })
          else
            bumpStats (bumpStats acc2 team1.id (fun s => { s with points := s.points + 1 }))
              team2.id (fun s => { s with points := s.points + 1 }))
        (bumpStats
          (bumpStats (initTeamStats (initTeamStats acc team1) team2)
            team1.id (fun s => { s with matchesPlayed := s.matchesPlayed + 1 }))
          team2.id (fun s => { s with matchesPlayed := s.matchesPlayed + 1 }))
    | _, _ => acc

/-- `Object.values(teamStats)`: the accumulator is a plain JS object
whose keys are the numeric team ids, and integer-like keys enumerate in
ascending numeric order, so the values come out ordered by team id. -/
def objectValuesById (acc : List (Nat × TeamStats)) : List TeamStats :=
  (insertionSort (fun a b => decide (a.1 ≤ b.1)) acc).map (fun p => p.2)

/-- The standings comparator: points descending, then wins descending;
`0` (full tie) keeps the relative order of the stable sort. -/
def standingsLe (a b : TeamStats) : Bool :=
  if a.points = b.points then decide (b.wins ≤ a.wins) else decide (b.points < a.points)

/-- `.map((stats, index) => ({ rank: index + 1, ...stats }))`. -/
def assignRanks : Nat → List TeamStats → List StandingEntry
  | _, [] => []
  | i, s :: rest =>
      ⟨i, s.team, s.wins, s.losses, s.points, s.matchesPlayed⟩ :: assignRanks (i + 1) rest

/-- `TournamentService.calculateStandingsFromMatches(matches)`. -/
def calculateStandingsFromMatches (matchList : List Match) : List StandingEntry :=
  assignRanks 1 (insertionSort standingsLe (objectValuesById (matchList.foldl statsStep [])))

/-! ## Subscription registry (NotificationService.registerToken) -/

/-- The JSON payload stored in the `fcm:tokens` hash for one token. -/
structure UserData where
  favoriteTeams : List String
  language : String
deriving DecidableEq

/-- A stored subscription as decoded by `sendLocalizedNotification`:
either the legacy plain-array shape or the current object shape. -/
inductive StoredSub where
  | legacyList (favoriteTeams : List String)
  | userRecord (u : UserData)
deriving DecidableEq

/-- The language `sendLocalizedNotification` groups a stored record
under: legacy arrays default to English, and a falsy stored language
falls back to `'en'` (`userData.language || 'en'`). -/
def subscriptionLanguage : StoredSub → String
  | StoredSub.legacyList _ => "en"
  | StoredSub.userRecord u => if u.language = "" then "en" else u.language

/-- `NotificationService.registerToken(fcmToken, favoriteTeams, language
= 'en')`: reject a falsy token or an empty team list, otherwise store
`{ favoriteTeams, language: language || 'en' }` in the token hash.
`none` models an omitted argument (the JS default parameter applies);
`some ""` is the falsy string. -/
def registerToken (tokens : List (String × UserData)) (fcmToken : String)
    (favoriteTeams : List String) (language : Option String) :
    Except String (List (String × UserData)) :=
  if fcmToken = "" ∨ favoriteTeams = [] then
    Except.error ("FCM token and favorite teams are required")
  else
    Except.ok (hSet tokens fcmToken
      { favoriteTeams := favoriteTeams,
        language :=
          match language with
          | none => "en"
          | some l => if l = "" then "en" else l })

/-! ## Infrastructure lemmas: hashes and the stable sort -/

theorem hGet_hSet_self [BEq κ] [LawfulBEq κ] (h : List (κ × α)) (k : κ) (v : α) :
    hGet (hSet h k v) k = some v := by
  induction h with
  | nil => simp [hSet, hGet]
  | cons p t ih =>
    by_cases hp : (p.1 == k) = true
    · simp [hSet, hGet, hp]
    · by_cases ht : (t.any (fun q => q.1 == k)) = true
      · simpa [hSet, hGet, hp, ht] using ih
      · simpa [hSet, hGet, hp, ht] using ih

theorem perm_insertSorted (le : α → α → Bool) (x : α) (l : List α) :
    (insertSorted le x l).Perm (x :: l) := by
  induction l with
  | nil => rfl
  | cons y ys ih =>
    by_cases h : le x y = true
    · simp [insertSorted, h]
    · have h1 : insertSorted le x (y :: ys) = y :: insertSorted le x ys := by
        simp [insertSorted, h]
      rw [h1]
      exact (List.Perm.cons y ih).trans (List.Perm.swap x y ys)

theorem perm_insertionSort (le : α → α → Bool) (l : List α) :
    (insertionSort le l).Perm l := by
  induction l with
  | nil => rfl
  | cons x xs ih =>
    have h1 : insertionSort le (x :: xs) = insertSorted le x (insertionSort le xs) := rfl
    rw [h1]
    exact (perm_insertSorted le x (insertionSort le xs)).trans (List.Perm.cons x ih)

theorem pairwise_insertSorted (le : α → α → Bool)
    (htot : ∀ a b, le a b = false → le b a = true)
    (htrans : ∀ a b c, le a b = true → le b c = true → le a c = true)
    (x : α) (l : List α) (h : l.Pairwise (fun a b => le a b = true)) :
    (insertSorted le x l).Pairwise (fun a b => le a b = true) := by
  induction l with
  | nil => simp [insertSorted]
  | cons y ys ih =>
    rcases List.pairwise_cons.mp h with ⟨hy, hys⟩
    by_cases hxy : le x y = true
    · simp only [insertSorted, hxy, if_true]
      refine List.pairwise_cons.mpr ⟨?_, h⟩
      intro b hb
      rcases List.mem_cons.mp hb with rfl | hb'
      · exact hxy
      · exact htrans x y b hxy (hy b hb')
    · have hxy' : le x y = false := by simpa using hxy
      have h1 : insertSorted le x (y :: ys) = y :: insertSorted le x ys := by
        simp [insertSorted, hxy]
      rw [h1]
      refine List.pairwise_cons.mpr ⟨?_, ih hys⟩
      intro b hb
      have hb' := (perm_insertSorted le x ys).mem_iff.mp hb
      rcases List.mem_cons.mp hb' with rfl | hb''
      · exact htot _ _ hxy'
      · exact hy b hb''

theorem pairwise_insertionSort (le : α → α → Bool)
    (htot : ∀ a b, le a b = false → le b a = true)
    (htrans : ∀ a b c, le a b = true → le b c = true → le a c = true)
    (l : List α) :
    (insertionSort le l).Pairwise (fun a b => le a b = true) := by
  induction l with
  | nil => simp [insertionSort]
  | cons x xs ih => exact pairwise_insertSorted le htot htrans x _ ih

theorem insertionSort_eq_self (le : α → α → Bool) (l : List α)
    (h : l.Pairwise (fun a b => le a b = true)) : insertionSort le l = l := by
  induction l with
  | nil => rfl
  | cons x xs ih =>
    rcases List.pairwise_cons.mp h with ⟨hx, hxs⟩
    have h1 : insertionSort le (x :: xs) = insertSorted le x xs := by
      show insertSorted le x (insertionSort le xs) = insertSorted le x xs
      rw [ih hxs]
    rw [h1]
    cases xs with
    | nil => rfl
    | cons y ys => simp [insertSorted, hx y (List.mem_cons_self y ys)]

/-! ## Merger lemmas

`buildMatchMap` is a fold of `mapSet`; the lemmas below characterise how
ids, duplicate-freeness and last-written values behave under that fold,
and culminate in idempotence and monotonic retention of the merge. -/

theorem beq_comm_of_not (a b : Nat) (h : ¬ (a == b) = true) : ¬ (b == a) = true := by
  intro hb
  exact h (beq_iff_eq.mpr (beq_iff_eq.mp hb).symm)

theorem any_beq_false_forall (acc : List Match) (n : Nat)
    (h : acc.any (fun y => y.id == n) = false) : ∀ z ∈ acc, z.id ≠ n := by
  intro z hz he
  have ht : acc.any (fun y => y.id == n) = true :=
    List.any_eq_true.mpr ⟨z, hz, beq_iff_eq.mpr he⟩
  rw [ht] at h
  cases h

theorem mapSet_pos (acc : List Match) (m : Match)
    (h : acc.any (fun x => x.id == m.id) = true) :
    mapSet acc m = acc.map (fun x => if x.id == m.id then m else x) := by
  simp [mapSet, h]

theorem mapSet_neg (acc : List Match) (m : Match)
    (h : acc.any (fun x => x.id == m.id) = false) :
    mapSet acc m = acc ++ [m] := by
  simp [mapSet, h]

theorem mapSet_overwrite_id (m x : Match) :
    ((if x.id == m.id then m else x) : Match).id = x.id := by
  by_cases h : (x.id == m.id) = true
  · simp only [h, if_true]
    exact (beq_iff_eq.mp h).symm
  · simp [h]

theorem idMem_mapSet (acc : List Match) (m : Match) (n : Nat)
    (h : ∃ x ∈ acc, x.id = n) : ∃ x ∈ mapSet acc m, x.id = n := by
  rcases h with ⟨x, hx, hid⟩
  by_cases hany : (acc.any (fun y => y.id == m.id)) = true
  · rw [mapSet_pos acc m hany]
    exact ⟨(if x.id == m.id then m else x), List.mem_map_of_mem _ hx,
      by rw [mapSet_overwrite_id]; exact hid⟩
  · rw [mapSet_neg acc m (by simpa using hany)]
    exact ⟨x, List.mem_append_left _ hx, hid⟩

theorem idMem_mapSet_self (acc : List Match) (m : Match) :
    ∃ x ∈ mapSet acc m, x.id = m.id := by
  by_cases hany : (acc.any (fun y => y.id == m.id)) = true
  · rcases List.any_eq_true.mp hany with ⟨y, hy, hbeq⟩
    rw [mapSet_pos acc m hany]
    refine ⟨(if y.id == m.id then m else y), List.mem_map_of_mem _ hy, ?_⟩
    simp [hbeq]
  · rw [mapSet_neg acc m (by simpa using hany)]
    exact ⟨m, List.mem_append_right _ (List.mem_singleton.mpr rfl), rfl⟩

theorem idMem_foldl_mapSet (l : List Match) (acc : List Match) (n : Nat)
    (h : ∃ x ∈ acc, x.id = n) : ∃ x ∈ l.foldl mapSet acc, x.id = n := by
  induction l generalizing acc with
  | nil => simpa using h
  | cons m rest ih => exact ih _ (idMem_mapSet acc m n h)

theorem idMem_foldl_mapSet_of_mem (l : List Match) (acc : List Match) (m : Match)
    (hm : m ∈ l) : ∃ x ∈ l.foldl mapSet acc, x.id = m.id := by
  induction l generalizing acc with
  | nil => cases hm
  | cons a rest ih =>
    rcases List.mem_cons.mp hm with rfl | hm'
    · exact idMem_foldl_mapSet rest _ _ (idMem_mapSet_self acc m)
    · exact ih _ hm'

theorem pairwise_ne_mapSet (acc : List Match) (m : Match)
    (h : acc.Pairwise (fun a b => a.id ≠ b.id)) :
    (mapSet acc m).Pairwise (fun a b => a.id ≠ b.id) := by
  by_cases hany : (acc.any (fun y => y.id == m.id)) = true
  · rw [mapSet_pos acc m hany]
    rw [List.pairwise_map]
    exact h.imp (fun hab => by
      rw [mapSet_overwrite_id, mapSet_overwrite_id]; exact hab)
  · rw [mapSet_neg acc m (by simpa using hany)]
    refine List.pairwise_append.mpr ⟨h, List.pairwise_singleton _ _, ?_⟩
    intro a ha b hb
    rw [List.mem_singleton.mp hb]
    exact any_beq_false_forall acc m.id (by simpa using hany) a ha

theorem pairwise_ne_foldl_mapSet (l : List Match) (acc : List Match)
    (h : acc.Pairwise (fun a b => a.id ≠ b.id)) :
    (l.foldl mapSet acc).Pairwise (fun a b => a.id ≠ b.id) := by
  induction l generalizing acc with
  | nil => simpa using h
  | cons m rest ih => exact ih _ (pairwise_ne_mapSet acc m h)

theorem pairwise_ne_buildMatchMap (l : List Match) :
    (buildMatchMap l).Pairwise (fun a b => a.id ≠ b.id) :=
  pairwise_ne_foldl_mapSet l [] (List.Pairwise.nil)

/-- The value an id ends up with after overwriting with the whole
snapshot: the last snapshot record carrying that id, if any. -/
def applyOverwrites (snap : List Match) (x : Match) : Match :=
  match snap.reverse.find? (fun m => m.id == x.id) with
  | some m => m
  | none => x

theorem applyOverwrites_nil (x : Match) : applyOverwrites [] x = x := rfl

theorem applyOverwrites_cons (m : Match) (rest : List Match) (x : Match) :
    applyOverwrites (m :: rest) x
      = applyOverwrites rest (if x.id == m.id then m else x) := by
  have hid : ((if x.id == m.id then m else x) : Match).id = x.id := mapSet_overwrite_id m x
  unfold applyOverwrites
  rw [hid, List.reverse_cons, List.find?_append]
  cases hf : rest.reverse.find? (fun y => y.id == x.id) with
  | some k => simp [hf]
  | none =>
    by_cases hm : (m.id == x.id) = true
    · have hx : (x.id == m.id) = true := by
        rw [beq_iff_eq] at hm ⊢; exact hm.symm
      simp [hf, List.find?, hm, hx]
    · have hx : (x.id == m.id) = false := by
        cases hb : (x.id == m.id) with
        | false => rfl
        | true => exact absurd hb (beq_comm_of_not m.id x.id hm)
      simp [hf, List.find?, hm, hx]

theorem applyOverwrites_append_singleton (init : List Match) (m x : Match) :
    applyOverwrites (init ++ [m]) x
      = if (m.id == x.id) = true then m else applyOverwrites init x := by
  unfold applyOverwrites
  rw [List.reverse_append]
  by_cases hm : (m.id == x.id) = true <;> simp [List.find?, hm]

theorem foldl_mapSet_all_present (snap : List Match) (acc : List Match)
    (h : ∀ m ∈ snap, ∃ x ∈ acc, x.id = m.id) :
    snap.foldl mapSet acc = acc.map (applyOverwrites snap) := by
  induction snap generalizing acc with
  | nil =>
    simp only [List.foldl_nil]
    have : acc.map (applyOverwrites []) = acc.map id := by
      apply List.map_congr_left
      intro a _
      exact applyOverwrites_nil a
    rw [this, List.map_id]
  | cons m rest ih =>
    have hm := h m (List.mem_cons_self m rest)
    have hany : acc.any (fun y => y.id == m.id) = true := by
      rcases hm with ⟨x, hx, hid⟩
      exact List.any_eq_true.mpr ⟨x, hx, beq_iff_eq.mpr hid⟩
    have hstep : (m :: rest).foldl mapSet acc
        = rest.foldl mapSet (acc.map (fun x => if x.id == m.id then m else x)) := by
      rw [List.foldl_cons, mapSet_pos acc m hany]
    rw [hstep, ih _ ?_]
    · rw [List.map_map]
      apply List.map_congr_left
      intro a _
      exact (applyOverwrites_cons m rest a).symm
    · intro m' hm'
      rcases h m' (List.mem_cons_of_mem m hm') with ⟨x, hx, hid⟩
      exact ⟨(if x.id == m.id then m else x), List.mem_map_of_mem _ hx,
        by rw [mapSet_overwrite_id]; exact hid⟩

theorem foldl_mapSet_applyOverwrites_fixed (snap : List Match) (acc : List Match) :
    ∀ x ∈ snap.foldl mapSet acc, applyOverwrites snap x = x := by
  induction snap using List.reverseRecOn with
  | nil => intro x _; exact applyOverwrites_nil x
  | append_singleton init m ih =>
    intro x hx
    rw [List.foldl_append, List.foldl_cons, List.foldl_nil] at hx
    rw [applyOverwrites_append_singleton]
    by_cases hany : ((init.foldl mapSet acc).any (fun y => y.id == m.id)) = true
    · rw [mapSet_pos _ m hany] at hx
      rcases List.mem_map.mp hx with ⟨y, hy, rfl⟩
      by_cases hym : (y.id == m.id) = true
      · rw [if_pos hym, if_pos (beq_iff_eq.mpr rfl)]
      · rw [if_neg hym, if_neg (beq_comm_of_not y.id m.id hym), ih y hy]
    · rw [mapSet_neg _ m (by simpa using hany)] at hx
      rcases List.mem_append.mp hx with hxB | hxm
      · have hne : x.id ≠ m.id :=
          any_beq_false_forall _ m.id (by simpa using hany) x hxB
        have hne' : ¬ (m.id == x.id) = true := fun hb => hne (beq_iff_eq.mp hb).symm
        rw [if_neg hne', ih x hxB]
      · rw [List.mem_singleton.mp hxm, if_pos (beq_iff_eq.mpr rfl)]

theorem foldl_mapSet_fresh (l : List Match) (acc : List Match)
    (hfresh : ∀ y ∈ l, ∀ z ∈ acc, z.id ≠ y.id)
    (hnd : l.Pairwise (fun a b => a.id ≠ b.id)) :
    l.foldl mapSet acc = acc ++ l := by
  induction l generalizing acc with
  | nil => simp
  | cons y ys ih =>
    rcases List.pairwise_cons.mp hnd with ⟨hyhead, hytail⟩
    have hany : acc.any (fun x => x.id == y.id) = false := by
      apply List.any_eq_false.mpr
      intro z hz
      simpa using hfresh y (List.mem_cons_self y ys) z hz
    rw [List.foldl_cons, mapSet_neg acc y hany, ih (acc ++ [y]) ?_ hytail]
    · rw [List.append_assoc, List.singleton_append]
    · intro y' hy' z hz
      rcases List.mem_append.mp hz with hz' | hz''
      · exact hfresh y' (List.mem_cons_of_mem y hy') z hz'
      · rw [List.mem_singleton.mp hz'']
        exact hyhead y' hy'

theorem leBeginAt_total : ∀ a b : Match, leBeginAt a b = false → leBeginAt b a = true := by
  intro a b h
  simp [leBeginAt] at h ⊢
  omega

theorem leBeginAt_trans :
    ∀ a b c : Match, leBeginAt a b = true → leBeginAt b c = true → leBeginAt a c = true := by
  intro a b c h1 h2
  simp [leBeginAt] at h1 h2 ⊢
  omega

theorem mergeMatches_pairwise_ne (prev snap : List Match) :
    (mergeMatches prev snap).Pairwise (fun a b => a.id ≠ b.id) := by
  have hD := pairwise_ne_buildMatchMap (prev ++ snap)
  have hperm := perm_insertionSort leBeginAt (buildMatchMap (prev ++ snap))
  exact (hperm.pairwise_iff (fun hab => Ne.symm hab)).mpr hD

theorem mergeMatches_sorted (prev snap : List Match) :
    (mergeMatches prev snap).Pairwise (fun a b => leBeginAt a b = true) :=
  pairwise_insertionSort leBeginAt leBeginAt_total leBeginAt_trans _

theorem buildMatchMap_merge_again (prev snap : List Match) :
    buildMatchMap (mergeMatches prev snap ++ snap) = mergeMatches prev snap := by
  have hperm : (mergeMatches prev snap).Perm (buildMatchMap (prev ++ snap)) :=
    perm_insertionSort leBeginAt (buildMatchMap (prev ++ snap))
  have hnd : (mergeMatches prev snap).Pairwise (fun a b => a.id ≠ b.id) :=
    mergeMatches_pairwise_ne prev snap
  have h1 : (mergeMatches prev snap).foldl mapSet ([] : List Match) = mergeMatches prev snap := by
    have := foldl_mapSet_fresh (mergeMatches prev snap) [] (by intro y _ z hz; cases hz) hnd
    simpa using this
  have hpresent : ∀ m ∈ snap, ∃ x ∈ mergeMatches prev snap, x.id = m.id := by
    intro m hm
    rcases idMem_foldl_mapSet_of_mem (prev ++ snap) [] m (List.mem_append_right prev hm) with
      ⟨x, hx, hid⟩
    exact ⟨x, hperm.mem_iff.mpr hx, hid⟩
  have h2 : buildMatchMap (mergeMatches prev snap ++ snap)
      = (mergeMatches prev snap).map (applyOverwrites snap) := by
    show (mergeMatches prev snap ++ snap).foldl mapSet [] = _
    rw [List.foldl_append, h1]
    exact foldl_mapSet_all_present snap (mergeMatches prev snap) hpresent
  have h3 : ∀ x ∈ mergeMatches prev snap, applyOverwrites snap x = x := by
    intro x hx
    have hxD : x ∈ buildMatchMap (prev ++ snap) := hperm.mem_iff.mp hx
    have hsplit : buildMatchMap (prev ++ snap) = snap.foldl mapSet (prev.foldl mapSet []) := by
      show (prev ++ snap).foldl mapSet [] = _
      rw [List.foldl_append]
    rw [hsplit] at hxD
    exact foldl_mapSet_applyOverwrites_fixed snap (prev.foldl mapSet []) x hxD
  rw [h2]
  have h4 : (mergeMatches prev snap).map (applyOverwrites snap)
      = (mergeMatches prev snap).map id := List.map_congr_left h3
  rw [h4, List.map_id]

/-- Claim C2, main part: re-merging the same snapshot is the identity on
the reconciled list. -/
theorem mergeMatches_idem (prev snap : List Match) :
    mergeMatches (mergeMatches prev snap) snap = mergeMatches prev snap := by
  show insertionSort leBeginAt (buildMatchMap (mergeMatches prev snap ++ snap)) = _
  rw [buildMatchMap_merge_again]
  exact insertionSort_eq_self leBeginAt _ (mergeMatches_sorted prev snap)

/-- C2 — Merge idempotence: for every previously persisted match list and
every snapshot, merging the same snapshot twice in a row yields a
reconciled list identical to merging it once (in particular the same
ordering), and the reconciled list carries no duplicate ids. -/
theorem claim_merge_idempotence (prev snap : List Match) :
    mergeMatches (mergeMatches prev snap) snap = mergeMatches prev snap ∧
    (mergeMatches prev snap).Pairwise (fun a b => a.id ≠ b.id) :=
  ⟨mergeMatches_idem prev snap, mergeMatches_pairwise_ne prev snap⟩

/-- C3 — Merge monotonic retention: every match id present in the
previously persisted list is still present after merging any snapshot
(a snapshot that no longer mentions the id never removes it). -/
theorem claim_merge_monotonic_retention (prev snap : List Match) (n : Nat)
    (h : ∃ m ∈ prev, m.id = n) : ∃ x ∈ mergeMatches prev snap, x.id = n := by
  rcases h with ⟨m, hm, hid⟩
  rcases idMem_foldl_mapSet_of_mem (prev ++ snap) [] m (List.mem_append_left snap hm) with
    ⟨x, hx, hxid⟩
  exact ⟨x, (perm_insertionSort leBeginAt _).mem_iff.mpr hx, by rw [hxid, hid]⟩

def mW1 : Match := ⟨1, "finished", 0, [], []⟩

def mW2 : Match := ⟨2, "not_started", 5, [], []⟩

theorem claim_merge_monotonic_retention_witness :
    (∃ m ∈ [mW1], m.id = 1) ∧ ∃ x ∈ mergeMatches [mW1] [mW2], x.id = 1 :=
  ⟨by decide, claim_merge_monotonic_retention [mW1] [mW2] 1 (by decide)⟩

/-- C6 — Empty-snapshot merge is a no-op: `fetchLiveMatches` with an
empty fetched list leaves the whole service state (cached blob and all
detector markers) unchanged and emits nothing. -/
theorem claim_empty_snapshot_noop (st : ServiceState) (now : Int) :
    fetchLiveMatches st [] now = (st, []) := by
  simp [fetchLiveMatches]

/-! ## Detector lemmas -/

theorem check10_statuses (st : DetectorState) (m : Match) (now : Int) :
    (check10MinuteReminder st m now).1.statuses = st.statuses := by
  unfold check10MinuteReminder
  split
  · split <;> rfl
  · rfl

theorem check10_scores (st : DetectorState) (m : Match) (now : Int) :
    (check10MinuteReminder st m now).1.scores = st.scores := by
  unfold check10MinuteReminder
  split
  · split <;> rfl
  · rfl

theorem check10_events_cases (st : DetectorState) (m : Match) (now : Int) :
    (check10MinuteReminder st m now).2 = []
      ∨ (check10MinuteReminder st m now).2
          = [Event.reminder m.id (teamName1 m) (teamName2 m)] := by
  unfold check10MinuteReminder
  split
  · split
    · exact Or.inl rfl
    · exact Or.inr rfl
  · exact Or.inl rfl

theorem checkScore_statuses (st : DetectorState) (m : Match) :
    (checkScoreChange st m).1.statuses = st.statuses := rfl

theorem checkScore_reminders (st : DetectorState) (m : Match) :
    (checkScoreChange st m).1.reminders = st.reminders := rfl

theorem checkScore_scores (st : DetectorState) (m : Match) :
    (checkScoreChange st m).1.scores = hSet st.scores m.id (currentScore m) := rfl

theorem checkScore_events_cases (st : DetectorState) (m : Match) :
    (checkScoreChange st m).2 = []
      ∨ (checkScoreChange st m).2
          = [Event.scoreUpdate m.id (teamName1 m) (scoreAt m 0) (scoreAt m 1) (teamName2 m)] := by
  unfold checkScoreChange
  cases hGet st.scores m.id with
  | none => exact Or.inl rfl
  | some p =>
    by_cases hp : p = currentScore m
    · simp [hp]
    · simp [hp]

theorem scoreStep_statuses (st : DetectorState) (m : Match) :
    (scoreStep st m).1.statuses = st.statuses := by
  unfold scoreStep
  split
  · rfl
  · rfl

theorem scoreStep_reminders (st : DetectorState) (m : Match) :
    (scoreStep st m).1.reminders = st.reminders := by
  unfold scoreStep
  split
  · rfl
  · rfl

theorem scoreStep_events_cases (st : DetectorState) (m : Match) :
    (scoreStep st m).2 = []
      ∨ (scoreStep st m).2
          = [Event.scoreUpdate m.id (teamName1 m) (scoreAt m 0) (scoreAt m 1) (teamName2 m)] := by
  unfold scoreStep
  split
  · exact checkScore_events_cases st m
  · exact Or.inl rfl

theorem statusStep_reminders (st : DetectorState) (m : Match) (ps : Option String) :
    (statusStep st m ps).1.reminders = st.reminders := by
  unfold statusStep
  split
  · split <;> rfl
  · rfl

theorem statusStep_scores (st : DetectorState) (m : Match) (ps : Option String) :
    (statusStep st m ps).1.scores = st.scores := by
  unfold statusStep
  split
  · split <;> rfl
  · rfl

theorem sendStatus_events_cases (m : Match) (a b : String) :
    sendStatusChangeNotification m a b = []
      ∨ sendStatusChangeNotification m a b = [Event.matchStarting m.id (teamName1 m) (teamName2 m)]
      ∨ sendStatusChangeNotification m a b
          = [Event.matchFinished m.id
              (if scoreAt m 1 < scoreAt m 0 then teamName1 m else teamName2 m)
              (if scoreAt m 1 < scoreAt m 0 then teamName2 m else teamName1 m)
              ("(" ++ toString (scoreAt m 0) ++ "-" ++ toString (scoreAt m 1) ++ ")")] := by
  unfold sendStatusChangeNotification
  split
  · exact Or.inr (Or.inl rfl)
  · split
    · exact Or.inr (Or.inr rfl)
    · exact Or.inl rfl

theorem statusStep_events_cases (st : DetectorState) (m : Match) (ps : Option String) :
    (statusStep st m ps).2 = []
      ∨ ∃ a, (statusStep st m ps).2 = sendStatusChangeNotification m a m.status := by
  unfold statusStep
  split
  · split
    · exact Or.inl rfl
    · exact Or.inr ⟨_, rfl⟩
  · exact Or.inl rfl

theorem countReminders_append (n : Nat) (a b : List Event) :
    countReminders n (a ++ b) = countReminders n a + countReminders n b := by
  simp [countReminders, List.filter_append]

theorem countStarting_append (n : Nat) (a b : List Event) :
    countStarting n (a ++ b) = countStarting n a + countStarting n b := by
  simp [countStarting, List.filter_append]

theorem countFinished_append (n : Nat) (a b : List Event) :
    countFinished n (a ++ b) = countFinished n a + countFinished n b := by
  simp [countFinished, List.filter_append]

theorem countScoreUpdates_append (n : Nat) (a b : List Event) :
    countScoreUpdates n (a ++ b) = countScoreUpdates n a + countScoreUpdates n b := by
  simp [countScoreUpdates, List.filter_append]

theorem finishedWinners_append (n : Nat) (a b : List Event) :
    finishedWinners n (a ++ b) = finishedWinners n a ++ finishedWinners n b := by
  simp [finishedWinners]

theorem countReminders_sendStatus (m : Match) (a b : String) (n : Nat) :
    countReminders n (sendStatusChangeNotification m a b) = 0 := by
  rcases sendStatus_events_cases m a b with h | h | h <;>
    simp [h, countReminders, isReminderFor]

theorem countScoreUpdates_sendStatus (m : Match) (a b : String) (n : Nat) :
    countScoreUpdates n (sendStatusChangeNotification m a b) = 0 := by
  rcases sendStatus_events_cases m a b with h | h | h <;>
    simp [h, countScoreUpdates, isScoreUpdateFor]

theorem countReminders_statusStep (st : DetectorState) (m : Match) (ps : Option String) (n : Nat) :
    countReminders n (statusStep st m ps).2 = 0 := by
  rcases statusStep_events_cases st m ps with h | ⟨a, h⟩
  · simp [h, countReminders]
  · rw [h]; exact countReminders_sendStatus m a m.status n

theorem countScoreUpdates_statusStep (st : DetectorState) (m : Match) (ps : Option String)
    (n : Nat) : countScoreUpdates n (statusStep st m ps).2 = 0 := by
  rcases statusStep_events_cases st m ps with h | ⟨a, h⟩
  · simp [h, countScoreUpdates]
  · rw [h]; exact countScoreUpdates_sendStatus m a m.status n

theorem countReminders_scoreStep (st : DetectorState) (m : Match) (n : Nat) :
    countReminders n (scoreStep st m).2 = 0 := by
  rcases scoreStep_events_cases st m with h | h <;>
    simp [h, countReminders, isReminderFor]

theorem countStarting_scoreStep (st : DetectorState) (m : Match) (n : Nat) :
    countStarting n (scoreStep st m).2 = 0 := by
  rcases scoreStep_events_cases st m with h | h <;>
    simp [h, countStarting, isStartingFor]

theorem countFinished_scoreStep (st : DetectorState) (m : Match) (n : Nat) :
    countFinished n (scoreStep st m).2 = 0 := by
  rcases scoreStep_events_cases st m with h | h <;>
    simp [h, countFinished, isFinishedFor]

theorem finishedWinners_scoreStep (st : DetectorState) (m : Match) (n : Nat) :
    finishedWinners n (scoreStep st m).2 = [] := by
  rcases scoreStep_events_cases st m with h | h <;>
    simp [h, finishedWinners]

theorem countStarting_check10 (st : DetectorState) (m : Match) (now : Int) (n : Nat) :
    countStarting n (check10MinuteReminder st m now).2 = 0 := by
  rcases check10_events_cases st m now with h | h <;>
    simp [h, countStarting, isStartingFor]

theorem countFinished_check10 (st : DetectorState) (m : Match) (now : Int) (n : Nat) :
    countFinished n (check10MinuteReminder st m now).2 = 0 := by
  rcases check10_events_cases st m now with h | h <;>
    simp [h, countFinished, isFinishedFor]

theorem countScoreUpdates_check10 (st : DetectorState) (m : Match) (now : Int) (n : Nat) :
    countScoreUpdates n (check10MinuteReminder st m now).2 = 0 := by
  rcases check10_events_cases st m now with h | h <;>
    simp [h, countScoreUpdates, isScoreUpdateFor]

theorem finishedWinners_check10 (st : DetectorState) (m : Match) (now : Int) (n : Nat) :
    finishedWinners n (check10MinuteReminder st m now).2 = [] := by
  rcases check10_events_cases st m now with h | h <;>
    simp [h, finishedWinners]

theorem processMatch_reminders (st : DetectorState) (m : Match) (now : Int) :
    (processMatch st m now).1.reminders = (check10MinuteReminder st m now).1.reminders := by
  show (scoreStep _ m).1.reminders = _
  rw [scoreStep_reminders, statusStep_reminders]

theorem processMatch_statuses (st : DetectorState) (m : Match) (now : Int) :
    (processMatch st m now).1.statuses
      = (statusStep (check10MinuteReminder st m now).1 m (hGet st.statuses m.id)).1.statuses := by
  show (scoreStep _ m).1.statuses = _
  rw [scoreStep_statuses]

theorem processMatch_events (st : DetectorState) (m : Match) (now : Int) :
    (processMatch st m now).2
      = (check10MinuteReminder st m now).2
          ++ (statusStep (check10MinuteReminder st m now).1 m (hGet st.statuses m.id)).2
          ++ (scoreStep (statusStep (check10MinuteReminder st m now).1 m
                (hGet st.statuses m.id)).1 m).2 := rfl

/-- The at-most-once potential: `1` while the reminder marker for `n` is
absent, `0` once it is in the set. -/
def remPhi (n : Nat) (st : DetectorState) : Nat := if n ∈ st.reminders then 0 else 1

theorem check10_potential (st : DetectorState) (m : Match) (now : Int) (n : Nat) :
    countReminders n (check10MinuteReminder st m now).2
      + remPhi n (check10MinuteReminder st m now).1 ≤ remPhi n st := by
  unfold check10MinuteReminder
  split
  · split
    · simp [countReminders]
    · rename_i hwin hmem
      by_cases hn : n = m.id
      · subst hn
        simp [countReminders, isReminderFor, remPhi, hmem, List.mem_append]
      · simp only [countReminders, isReminderFor, remPhi, List.mem_append,
          List.mem_singleton]
        have hbeq : (m.id == n) = false := by
          cases hb : (m.id == n) with
          | false => rfl
          | true => exact absurd (beq_iff_eq.mp hb).symm hn
        simp [isReminderFor, hbeq, hn]
  · simp [countReminders]

theorem remPhi_congr (n : Nat) (st1 st2 : DetectorState) (h : st1.reminders = st2.reminders) :
    remPhi n st1 = remPhi n st2 := by
  simp [remPhi, h]

theorem processMatch_potential (st : DetectorState) (m : Match) (now : Int) (n : Nat) :
    countReminders n (processMatch st m now).2 + remPhi n (processMatch st m now).1
      ≤ remPhi n st := by
  have hmain := check10_potential st m now n
  rw [processMatch_events, countReminders_append, countReminders_append,
    countReminders_statusStep, countReminders_scoreStep,
    remPhi_congr n (processMatch st m now).1 (check10MinuteReminder st m now).1
      (processMatch_reminders st m now)] at *
  omega

theorem processMatchUpdates_potential (ms : List Match) (st : DetectorState) (now : Int)
    (n : Nat) :
    countReminders n (processMatchUpdates st ms now).2
      + remPhi n (processMatchUpdates st ms now).1 ≤ remPhi n st := by
  induction ms generalizing st with
  | nil => simp [processMatchUpdates, countReminders]
  | cons m rest ih =>
    have h1 := processMatch_potential st m now n
    have h2 := ih (processMatch st m now).1
    simp only [processMatchUpdates]
    rw [countReminders_append]
    omega

theorem runPasses_potential (passes : List (List Match × Int)) (st : DetectorState) (n : Nat) :
    countReminders n (runPasses st passes).2 + remPhi n (runPasses st passes).1
      ≤ remPhi n st := by
  induction passes generalizing st with
  | nil => simp [runPasses, countReminders]
  | cons p rest ih =>
    obtain ⟨ms, now⟩ := p
    have h1 := processMatchUpdates_potential ms st now n
    have h2 := ih (processMatchUpdates st ms now).1
    simp only [runPasses]
    rw [countReminders_append]
    omega

/-- C1 — Reminder at-most-once: for a fixed match id, across any sequence
of detector passes the `MatchReminder` event is emitted at most once; the
reminder marker is never cleared, and once the reminder fired the marker
is set. -/
theorem claim_reminder_at_most_once (st : DetectorState) (passes : List (List Match × Int))
    (n : Nat) :
    countReminders n (runPasses st passes).2 ≤ 1
      ∧ (n ∈ st.reminders → n ∈ (runPasses st passes).1.reminders
          ∧ countReminders n (runPasses st passes).2 = 0)
      ∧ (1 ≤ countReminders n (runPasses st passes).2
          → n ∈ (runPasses st passes).1.reminders) := by
  have h := runPasses_potential passes st n
  by_cases h1 : n ∈ st.reminders
  · by_cases h2 : n ∈ (runPasses st passes).1.reminders
    · simp only [remPhi, h1, h2, if_pos] at h
      exact ⟨by omega, fun _ => ⟨h2, by omega⟩, fun _ => h2⟩
    · simp only [remPhi, if_pos h1, if_neg h2] at h
      exact absurd h (by omega)
  · by_cases h2 : n ∈ (runPasses st passes).1.reminders
    · simp only [remPhi, if_neg h1, if_pos h2] at h
      exact ⟨by omega, fun hmem => absurd hmem h1, fun _ => h2⟩
    · simp only [remPhi, if_neg h1, if_neg h2] at h
      exact ⟨by omega, fun hmem => absurd hmem h1, fun hc => by omega⟩

def mRem : Match := ⟨9, "not_started", 600000, [], []⟩

def remPasses : List (List Match × Int) := [([mRem], 0), ([mRem], 0)]

theorem claim_reminder_at_most_once_witness :
    1 ≤ countReminders 9 (runPasses ⟨[], [], []⟩ remPasses).2
      ∧ 9 ∈ (runPasses ⟨[], [], []⟩ remPasses).1.reminders :=
  ⟨by decide, (claim_reminder_at_most_once ⟨[], [], []⟩ remPasses 9).2.2 (by decide)⟩

/-! ## Per-pass analysis of the detector -/

theorem scoreStep_not_running (st : DetectorState) (m : Match) (h : ¬ m.status = "running") :
    scoreStep st m = (st, []) := by
  simp [scoreStep, h]

theorem statusStep_none_statuses (st : DetectorState) (m : Match) :
    (statusStep st m none).1.statuses = hSet st.statuses m.id m.status := rfl

theorem statusStep_none_events (st : DetectorState) (m : Match) :
    (statusStep st m none).2 = [] := rfl

theorem statusStep_some_ne_statuses (st : DetectorState) (m : Match) (ps : String)
    (h : ¬ ps = m.status) :
    (statusStep st m (some ps)).1.statuses = hSet st.statuses m.id m.status := by
  simp [statusStep, h]

theorem statusStep_some_ne_events (st : DetectorState) (m : Match) (ps : String)
    (h : ¬ ps = m.status) :
    (statusStep st m (some ps)).2 = sendStatusChangeNotification m ps m.status := by
  simp [statusStep, h]

theorem statusStep_statuses_congr (st1 st2 : DetectorState) (m : Match) (ps : Option String)
    (h : st1.statuses = st2.statuses) :
    (statusStep st1 m ps).1.statuses = (statusStep st2 m ps).1.statuses := by
  unfold statusStep
  split
  · split
    · exact h
    · simp [h]
  · simp [h]

theorem processMatch_statuses_eq (st : DetectorState) (m : Match) (now : Int) :
    (processMatch st m now).1.statuses
      = (statusStep st m (hGet st.statuses m.id)).1.statuses := by
  rw [processMatch_statuses]
  exact statusStep_statuses_congr _ _ m _ (check10_statuses st m now)

theorem processMatch_statuses_none (st : DetectorState) (m : Match) (now : Int)
    (h : hGet st.statuses m.id = none) :
    (processMatch st m now).1.statuses = hSet st.statuses m.id m.status := by
  rw [processMatch_statuses_eq, h]
  rfl

theorem processMatch_statuses_some_ne (st : DetectorState) (m : Match) (now : Int) (ps : String)
    (h : hGet st.statuses m.id = some ps) (hne : ¬ ps = m.status) :
    (processMatch st m now).1.statuses = hSet st.statuses m.id m.status := by
  rw [processMatch_statuses_eq, h, statusStep_some_ne_statuses st m ps hne]

theorem countStarting_processMatch (st : DetectorState) (m : Match) (now : Int) (n : Nat) :
    countStarting n (processMatch st m now).2
      = countStarting n
          (statusStep (check10MinuteReminder st m now).1 m (hGet st.statuses m.id)).2 := by
  rw [processMatch_events, countStarting_append, countStarting_append,
    countStarting_check10, countStarting_scoreStep]
  omega

theorem countFinished_processMatch (st : DetectorState) (m : Match) (now : Int) (n : Nat) :
    countFinished n (processMatch st m now).2
      = countFinished n
          (statusStep (check10MinuteReminder st m now).1 m (hGet st.statuses m.id)).2 := by
  rw [processMatch_events, countFinished_append, countFinished_append,
    countFinished_check10, countFinished_scoreStep]
  omega

theorem finishedWinners_processMatch (st : DetectorState) (m : Match) (now : Int) (n : Nat) :
    finishedWinners n (processMatch st m now).2
      = finishedWinners n
          (statusStep (check10MinuteReminder st m now).1 m (hGet st.statuses m.id)).2 := by
  rw [processMatch_events, finishedWinners_append, finishedWinners_append,
    finishedWinners_check10, finishedWinners_scoreStep]
  simp

theorem countScoreUpdates_processMatch (st : DetectorState) (m : Match) (now : Int) (n : Nat) :
    countScoreUpdates n (processMatch st m now).2
      = countScoreUpdates n
          (scoreStep (statusStep (check10MinuteReminder st m now).1 m
            (hGet st.statuses m.id)).1 m).2 := by
  rw [processMatch_events, countScoreUpdates_append, countScoreUpdates_append,
    countScoreUpdates_check10, countScoreUpdates_statusStep]
  omega

theorem sendStatus_ns_running (m : Match) :
    sendStatusChangeNotification m "not_started" "running"
      = [Event.matchStarting m.id (teamName1 m) (teamName2 m)] := by
  unfold sendStatusChangeNotification
  rw [if_pos ⟨rfl, rfl⟩]

theorem sendStatus_running_finished (m : Match) :
    sendStatusChangeNotification m "running" "finished"
      = [Event.matchFinished m.id
          (if scoreAt m 1 < scoreAt m 0 then teamName1 m else teamName2 m)
          (if scoreAt m 1 < scoreAt m 0 then teamName2 m else teamName1 m)
          ("(" ++ toString (scoreAt m 0) ++ "-" ++ toString (scoreAt m 1) ++ ")")] := by
  unfold sendStatusChangeNotification
  rw [if_neg (by decide), if_pos ⟨rfl, rfl⟩]

theorem processMatchUpdates_single (st : DetectorState) (m : Match) (now : Int) :
    processMatchUpdates st [m] now = processMatch st m now := by
  simp [processMatchUpdates]

/-- `match` with an overridden `status`, as produced by the upstream
between detector passes (all other fields unchanged). -/
def withStatus (m : Match) (s : String) : Match := { m with status := s }

theorem withStatus_id (m : Match) (s : String) : (withStatus m s).id = m.id := rfl

theorem withStatus_status (m : Match) (s : String) : (withStatus m s).status = s := rfl

theorem withStatus_teamName1 (m : Match) (s : String) :
    teamName1 (withStatus m s) = teamName1 m := rfl

theorem withStatus_teamName2 (m : Match) (s : String) :
    teamName2 (withStatus m s) = teamName2 m := rfl

theorem withStatus_scoreAt (m : Match) (s : String) (i : Nat) :
    scoreAt (withStatus m s) i = scoreAt m i := rfl

/-- First detector pass of the C4 scenario: the match observed as
`not_started`. -/
def passNotStarted (st : DetectorState) (m : Match) (now1 : Int) :
    DetectorState × List Event :=
  processMatchUpdates st [withStatus m "not_started"] now1

/-- Second pass: the same match observed as `running`. -/
def passRunning (st : DetectorState) (m : Match) (now1 now2 : Int) :
    DetectorState × List Event :=
  processMatchUpdates (passNotStarted st m now1).1 [withStatus m "running"] now2

/-- Third pass: the same match observed as `finished`. -/
def passFinished (st : DetectorState) (m : Match) (now1 now2 now3 : Int) :
    DetectorState × List Event :=
  processMatchUpdates (passRunning st m now1 now2).1 [withStatus m "finished"] now3

/-- C4 — Status-transition coverage: feeding not_started → running →
finished for one match (first observed in the not_started pass) emits
exactly one `MatchStarting`, on the second pass, then exactly one
`MatchFinished`, on the third pass, and the finished notification names
the higher-scoring opponent as winner whenever the scores differ. -/
theorem claim_status_transition_coverage (st : DetectorState) (m : Match)
    (now1 now2 now3 : Int) (h : hGet st.statuses m.id = none) :
    countStarting m.id (passNotStarted st m now1).2 = 0
      ∧ countFinished m.id (passNotStarted st m now1).2 = 0
      ∧ countStarting m.id (passRunning st m now1 now2).2 = 1
      ∧ countFinished m.id (passRunning st m now1 now2).2 = 0
      ∧ countStarting m.id (passFinished st m now1 now2 now3).2 = 0
      ∧ countFinished m.id (passFinished st m now1 now2 now3).2 = 1
      ∧ finishedWinners m.id (passFinished st m now1 now2 now3).2
          = [if scoreAt m 1 < scoreAt m 0 then teamName1 m else teamName2 m]
      ∧ (scoreAt m 1 < scoreAt m 0
          → finishedWinners m.id (passFinished st m now1 now2 now3).2 = [teamName1 m])
      ∧ (scoreAt m 0 < scoreAt m 1
          → finishedWinners m.id (passFinished st m now1 now2 now3).2 = [teamName2 m]) := by
  have hpm1 : passNotStarted st m now1 = processMatch st (withStatus m "not_started") now1 := by
    rw [passNotStarted, processMatchUpdates_single]
  have h1 : hGet st.statuses (withStatus m "not_started").id = none := h
  have e1S : countStarting m.id (passNotStarted st m now1).2 = 0 := by
    rw [hpm1, countStarting_processMatch, h1, statusStep_none_events]
    rfl
  have e1F : countFinished m.id (passNotStarted st m now1).2 = 0 := by
    rw [hpm1, countFinished_processMatch, h1, statusStep_none_events]
    rfl
  have hst1 : (passNotStarted st m now1).1.statuses = hSet st.statuses m.id "not_started" := by
    rw [hpm1]
    exact processMatch_statuses_none st _ now1 h1
  have hprev2 : hGet (passNotStarted st m now1).1.statuses (withStatus m "running").id
      = some "not_started" := by
    rw [hst1]
    exact hGet_hSet_self st.statuses m.id "not_started"
  have hpm2 : passRunning st m now1 now2
      = processMatch (passNotStarted st m now1).1 (withStatus m "running") now2 := by
    rw [passRunning, processMatchUpdates_single]
  have hne2 : ¬ ("not_started" : String) = (withStatus m "running").status := by
    rw [withStatus_status]
    decide
  have e2S : countStarting m.id (passRunning st m now1 now2).2 = 1 := by
    rw [hpm2, countStarting_processMatch, hprev2, statusStep_some_ne_events _ _ _ hne2,
      withStatus_status, sendStatus_ns_running]
    simp [countStarting, isStartingFor, withStatus_id]
  have e2F : countFinished m.id (passRunning st m now1 now2).2 = 0 := by
    rw [hpm2, countFinished_processMatch, hprev2, statusStep_some_ne_events _ _ _ hne2,
      withStatus_status, sendStatus_ns_running]
    simp [countFinished, isFinishedFor]
  have hst2 : (passRunning st m now1 now2).1.statuses
      = hSet (passNotStarted st m now1).1.statuses m.id "running" := by
    rw [hpm2]
    exact processMatch_statuses_some_ne _ _ now2 "not_started" hprev2 hne2
  have hprev3 : hGet (passRunning st m now1 now2).1.statuses (withStatus m "finished").id
      = some "running" := by
    rw [hst2]
    exact hGet_hSet_self _ m.id "running"
  have hpm3 : passFinished st m now1 now2 now3
      = processMatch (passRunning st m now1 now2).1 (withStatus m "finished") now3 := by
    rw [passFinished, processMatchUpdates_single]
  have hne3 : ¬ ("running" : String) = (withStatus m "finished").status := by
    rw [withStatus_status]
    decide
  have e3S : countStarting m.id (passFinished st m now1 now2 now3).2 = 0 := by
    rw [hpm3, countStarting_processMatch, hprev3, statusStep_some_ne_events _ _ _ hne3,
      withStatus_status, sendStatus_running_finished]
    simp [countStarting, isStartingFor]
  have e3F : countFinished m.id (passFinished st m now1 now2 now3).2 = 1 := by
    rw [hpm3, countFinished_processMatch, hprev3, statusStep_some_ne_events _ _ _ hne3,
      withStatus_status, sendStatus_running_finished]
    simp [countFinished, isFinishedFor, withStatus_id]
  have e3W : finishedWinners m.id (passFinished st m now1 now2 now3).2
      = [if scoreAt m 1 < scoreAt m 0 then teamName1 m else teamName2 m] := by
    rw [hpm3, finishedWinners_processMatch, hprev3, statusStep_some_ne_events _ _ _ hne3,
      withStatus_status, sendStatus_running_finished]
    simp [finishedWinners, withStatus_id, withStatus_scoreAt, withStatus_teamName1,
      withStatus_teamName2]
  refine ⟨e1S, e1F, e2S, e2F, e3S, e3F, e3W, ?_, ?_⟩
  · intro hlt
    rw [e3W, if_pos hlt]
  · intro hlt
    rw [e3W, if_neg (by omega)]

def stEx : DetectorState := ⟨[], [], []⟩

def mEx : Match := ⟨7, "", 0, [⟨1, "Alpha"⟩, ⟨2, "Beta"⟩], [2, 1]⟩

theorem claim_status_transition_coverage_witness :
    hGet stEx.statuses mEx.id = none
      ∧ (countStarting mEx.id (passNotStarted stEx mEx 0).2 = 0
      ∧ countFinished mEx.id (passNotStarted stEx mEx 0).2 = 0
      ∧ countStarting mEx.id (passRunning stEx mEx 0 0).2 = 1
      ∧ countFinished mEx.id (passRunning stEx mEx 0 0).2 = 0
      ∧ countStarting mEx.id (passFinished stEx mEx 0 0 0).2 = 0
      ∧ countFinished mEx.id (passFinished stEx mEx 0 0 0).2 = 1
      ∧ finishedWinners mEx.id (passFinished stEx mEx 0 0 0).2
          = [if scoreAt mEx 1 < scoreAt mEx 0 then teamName1 mEx else teamName2 mEx]
      ∧ (scoreAt mEx 1 < scoreAt mEx 0
          → finishedWinners mEx.id (passFinished stEx mEx 0 0 0).2 = [teamName1 mEx])
      ∧ (scoreAt mEx 0 < scoreAt mEx 1
          → finishedWinners mEx.id (passFinished stEx mEx 0 0 0).2 = [teamName2 mEx])) :=
  ⟨rfl, claim_status_transition_coverage stEx mEx 0 0 0 rfl⟩

theorem scoreStep_running_events (st : DetectorState) (m : Match) (h : m.status = "running") :
    (scoreStep st m).2 = (checkScoreChange st m).2 := by
  simp [scoreStep, h]

theorem scoreStep_running_scores (st : DetectorState) (m : Match) (h : m.status = "running") :
    (scoreStep st m).1.scores = hSet st.scores m.id (currentScore m) := by
  simp [scoreStep, h, checkScore_scores]

theorem checkScore_events_eq (st : DetectorState) (m : Match) :
    (checkScoreChange st m).2
      = match hGet st.scores m.id with
        | some prevScore =>
            if prevScore = currentScore m then []
            else [Event.scoreUpdate m.id (teamName1 m) (scoreAt m 0) (scoreAt m 1) (teamName2 m)]
        | none => [] := rfl

theorem processMatch_scores_running (st : DetectorState) (m : Match) (now : Int)
    (hrun : m.status = "running") :
    (processMatch st m now).1.scores = hSet st.scores m.id (currentScore m) := by
  have h1 : (processMatch st m now).1.scores
      = (scoreStep (statusStep (check10MinuteReminder st m now).1 m
          (hGet st.statuses m.id)).1 m).1.scores := rfl
  rw [h1, scoreStep_running_scores _ m hrun, statusStep_scores, check10_scores]

theorem countScoreUpdates_processMatch_running (st : DetectorState) (m : Match) (now : Int)
    (p : String) (hrun : m.status = "running") (hprev : hGet st.scores m.id = some p) :
    countScoreUpdates m.id (processMatch st m now).2
      = if p = currentScore m then 0 else 1 := by
  rw [countScoreUpdates_processMatch, scoreStep_running_events _ m hrun, checkScore_events_eq,
    statusStep_scores, check10_scores, hprev]
  by_cases hp : p = currentScore m
  · simp [hp, countScoreUpdates]
  · simp [hp, countScoreUpdates, isScoreUpdateFor]

/-- C5 — Score-update dedup: a match observed as running in two
consecutive passes; the second pass emits one `ScoreUpdate` iff the score
string changed since the first pass persisted it (and zero otherwise),
and always leaves the current score string persisted. -/
theorem claim_score_update_dedup (st : DetectorState) (m1 m2 : Match) (now1 now2 : Int)
    (h1 : m1.status = "running") (h2 : m2.status = "running") (hid : m2.id = m1.id) :
    countScoreUpdates m1.id
        (processMatchUpdates (processMatchUpdates st [m1] now1).1 [m2] now2).2
      = (if currentScore m1 = currentScore m2 then 0 else 1)
    ∧ hGet (processMatchUpdates (processMatchUpdates st [m1] now1).1 [m2] now2).1.scores m1.id
      = some (currentScore m2) := by
  rw [processMatchUpdates_single, processMatchUpdates_single]
  have hsc1 : (processMatch st m1 now1).1.scores = hSet st.scores m1.id (currentScore m1) :=
    processMatch_scores_running st m1 now1 h1
  have hprev : hGet (processMatch st m1 now1).1.scores m2.id = some (currentScore m1) := by
    rw [hsc1, hid]
    exact hGet_hSet_self st.scores m1.id (currentScore m1)
  constructor
  · have hc := countScoreUpdates_processMatch_running (processMatch st m1 now1).1 m2 now2
      (currentScore m1) h2 hprev
    rw [hid] at hc
    exact hc
  · have hsc2 : (processMatch (processMatch st m1 now1).1 m2 now2).1.scores
        = hSet (processMatch st m1 now1).1.scores m2.id (currentScore m2) :=
      processMatch_scores_running (processMatch st m1 now1).1 m2 now2 h2
    rw [hsc2, ← hid]
    exact hGet_hSet_self _ m2.id (currentScore m2)

def m5a : Match := ⟨4, "running", 0, [⟨1, "Alpha"⟩, ⟨2, "Beta"⟩], [1, 0]⟩

def m5b : Match := ⟨4, "running", 0, [⟨1, "Alpha"⟩, ⟨2, "Beta"⟩], [2, 0]⟩

theorem claim_score_update_dedup_witness :
    m5a.status = "running" ∧ m5b.status = "running" ∧ m5b.id = m5a.id
      ∧ (countScoreUpdates m5a.id
            (processMatchUpdates (processMatchUpdates stEx [m5a] 0).1 [m5b] 0).2
          = (if currentScore m5a = currentScore m5b then 0 else 1)
        ∧ hGet (processMatchUpdates (processMatchUpdates stEx [m5a] 0).1 [m5b] 0).1.scores m5a.id
          = some (currentScore m5b)) :=
  ⟨rfl, rfl, rfl, claim_score_update_dedup stEx m5a m5b 0 0 rfl rfl rfl⟩

/-- C9 counterexample — on a running → finished transition with equal
final scores the code names the second opponent, not the first, as the
winner: `score1 > score2` is false on a tie, so the ternary picks
`teamNames[1]`. -/
def tieMatch : Match := ⟨7, "finished", 0, [⟨1, "Alpha"⟩, ⟨2, "Beta"⟩], [1, 1]⟩

theorem claim_tie_winner_counterexample :
    sendStatusChangeNotification tieMatch "running" "finished"
      = [Event.matchFinished 7 ("Beta") ("Alpha") ("(1-1)")]
    ∧ teamName1 tieMatch = "Alpha" ∧ teamName2 tieMatch = "Beta"
    ∧ ("Beta" : String) ≠ "Alpha" := by
  decide

/-- C9 amended — Tie-score winner: on a running-to-finished transition
with equal final scores, the `MatchFinished` notification names the
second opponent as the winner (and the first as the loser). -/
theorem claim_tie_winner_second (m : Match) (h : scoreAt m 0 = scoreAt m 1) :
    sendStatusChangeNotification m "running" "finished"
      = [Event.matchFinished m.id (teamName2 m) (teamName1 m)
          ("(" ++ toString (scoreAt m 0) ++ "-" ++ toString (scoreAt m 1) ++ ")")] := by
  rw [sendStatus_running_finished]
  have hlt : ¬ scoreAt m 1 < scoreAt m 0 := by omega
  rw [if_neg hlt, if_neg hlt]

theorem claim_tie_winner_second_witness :
    scoreAt tieMatch 0 = scoreAt tieMatch 1
      ∧ sendStatusChangeNotification tieMatch "running" "finished"
        = [Event.matchFinished tieMatch.id (teamName2 tieMatch) (teamName1 tieMatch)
            ("(" ++ toString (scoreAt tieMatch 0) ++ "-"
              ++ toString (scoreAt tieMatch 1) ++ ")")] :=
  ⟨rfl, claim_tie_winner_second tieMatch rfl⟩

/-! ## Alias matching (C8) -/

theorem matchesTeam_eq_true_iff (a b : String) :
    matchesTeam a b = true
      ↔ (¬ (a = "" ∨ b = "")
          ∧ (normName a = normName b
            ∨ ∃ p ∈ aliases, (normName a = p.1 ∨ normName a ∈ p.2)
                ∧ (normName b = p.1 ∨ normName b ∈ p.2))) := by
  unfold matchesTeam
  by_cases hab : a = "" ∨ b = ""
  · simp [hab]
  · by_cases heq : normName a = normName b
    · simp [hab, heq]
    · rw [if_neg hab, if_neg heq, List.any_eq_true]
      constructor
      · rintro ⟨p, hp, hcond⟩
        rw [Bool.and_eq_true, Bool.or_eq_true, Bool.or_eq_true] at hcond
        refine ⟨hab, Or.inr ⟨p, hp, ?_, ?_⟩⟩
        · rcases hcond.1 with hk | hl
          · exact Or.inl (beq_iff_eq.mp hk)
          · exact Or.inr (by simpa using hl)
        · rcases hcond.2 with hk | hl
          · exact Or.inl (beq_iff_eq.mp hk)
          · exact Or.inr (by simpa using hl)
      · rintro ⟨-, heq' | ⟨p, hp, ha, hb⟩⟩
        · exact absurd heq' heq
        · refine ⟨p, hp, ?_⟩
          rw [Bool.and_eq_true, Bool.or_eq_true, Bool.or_eq_true]
          constructor
          · rcases ha with hk | hl
            · exact Or.inl (beq_iff_eq.mpr hk)
            · exact Or.inr (by simpa using hl)
          · rcases hb with hk | hl
            · exact Or.inl (beq_iff_eq.mpr hk)
            · exact Or.inr (by simpa using hl)

/-- C8 — Alias symmetry: `matchesTeam` is symmetric; the listed concrete
examples evaluate as stated; and two names match exactly when both are
non-empty and are either equal after lowering and trimming or fall in the
same alias group (never across groups). -/
theorem claim_alias_symmetry :
    (∀ a b, matchesTeam a b = matchesTeam b a)
      ∧ matchesTeam ("NaVi") ("Natus Vincere") = true
      ∧ matchesTeam ("Natus Vincere") ("NaVi") = true
      ∧ matchesTeam ("NaVi") ("FaZe") = false
      ∧ (∀ a b, matchesTeam a b = true
          ↔ (¬ (a = "" ∨ b = "")
              ∧ (normName a = normName b
                ∨ ∃ p ∈ aliases, (normName a = p.1 ∨ normName a ∈ p.2)
                    ∧ (normName b = p.1 ∨ normName b ∈ p.2)))) := by
  have key : ∀ a b, matchesTeam a b = true → matchesTeam b a = true := by
    intro a b h
    rw [matchesTeam_eq_true_iff] at h ⊢
    obtain ⟨h1, h2⟩ := h
    refine ⟨fun hor => h1 (Or.symm hor), ?_⟩
    rcases h2 with h2 | ⟨p, hp, ha, hb⟩
    · exact Or.inl h2.symm
    · exact Or.inr ⟨p, hp, hb, ha⟩
  refine ⟨?_, by decide, by decide, by decide, matchesTeam_eq_true_iff⟩
  intro a b
  cases hab : matchesTeam a b with
  | true => exact (key a b hab).symm
  | false =>
    cases hba : matchesTeam b a with
    | false => rfl
    | true => rw [key b a hba] at hab; exact hab.symm

/-! ## Registration default language (C10) -/

/-- C10 — Registration language default: a register call with a truthy
token and non-empty favourites and an omitted (`none`) or falsy
(`some ""`) language argument succeeds and stores the record with
language exactly `'en'`; the dispatcher then groups that record under
`'en'` (the English templates). -/
theorem claim_register_default_language (tokens : List (String × UserData))
    (fcmToken : String) (favs : List String) (language : Option String)
    (h1 : ¬ fcmToken = "") (h2 : ¬ favs = []) (h3 : language = none ∨ language = some "") :
    registerToken tokens fcmToken favs language
        = Except.ok (hSet tokens fcmToken ⟨favs, "en"⟩)
      ∧ hGet (hSet tokens fcmToken (⟨favs, "en"⟩ : UserData)) fcmToken
        = some ⟨favs, "en"⟩
      ∧ subscriptionLanguage (StoredSub.userRecord ⟨favs, "en"⟩) = "en" := by
  refine ⟨?_, hGet_hSet_self tokens fcmToken ⟨favs, "en"⟩, by simp [subscriptionLanguage]⟩
  unfold registerToken
  rw [if_neg (by rintro (h | h); exact h1 h; exact h2 h)]
  rcases h3 with rfl | rfl
  · rfl
  · rfl

theorem claim_register_default_language_witness :
    ¬ ("tok1" : String) = "" ∧ ¬ (["NaVi"] : List String) = [] ∧
      ((none : Option String) = none ∨ (none : Option String) = some "")
      ∧ (registerToken [] ("tok1") (["NaVi"]) none
          = Except.ok (hSet [] ("tok1") ⟨["NaVi"], "en"⟩)
        ∧ hGet (hSet [] ("tok1") (⟨["NaVi"], "en"⟩ : UserData)) ("tok1")
          = some ⟨["NaVi"], "en"⟩
        ∧ subscriptionLanguage (StoredSub.userRecord ⟨["NaVi"], "en"⟩) = "en") :=
  ⟨by decide, by decide, Or.inl rfl,
    claim_register_default_language [] ("tok1") (["NaVi"]) none (by decide) (by decide)
      (Or.inl rfl)⟩

/-! ## Standings lemmas (C7) -/

theorem standingsLe_iff (a b : TeamStats) :
    standingsLe a b = true
      ↔ (b.points < a.points ∨ (a.points = b.points ∧ b.wins ≤ a.wins)) := by
  simp only [standingsLe]
  by_cases hp : a.points = b.points
  · rw [if_pos hp]
    simp [hp]
  · rw [if_neg hp]
    simp [hp]

theorem standingsLe_total :
    ∀ a b : TeamStats, standingsLe a b = false → standingsLe b a = true := by
  intro a b h
  have h' : ¬ (b.points < a.points ∨ (a.points = b.points ∧ b.wins ≤ a.wins)) := by
    rw [← standingsLe_iff]
    simp [h]
  rw [standingsLe_iff]
  omega

theorem standingsLe_trans :
    ∀ a b c : TeamStats, standingsLe a b = true → standingsLe b c = true
      → standingsLe a c = true := by
  intro a b c h1 h2
  rw [standingsLe_iff] at h1 h2 ⊢
  omega

theorem statsStep_not_finished (acc : List (Nat × TeamStats)) (m : Match)
    (h : ¬ m.status = "finished") : statsStep acc m = acc := by
  unfold statsStep
  rw [if_pos h]

theorem foldl_statsStep_filter (ml : List Match) (acc : List (Nat × TeamStats)) :
    (ml.filter (fun m => m.status == "finished")).foldl statsStep acc
      = ml.foldl statsStep acc := by
  induction ml generalizing acc with
  | nil => rfl
  | cons m rest ih =>
    by_cases hm : (m.status == "finished") = true
    · have hf : List.filter (fun x => x.status == "finished") (m :: rest)
          = m :: List.filter (fun x => x.status == "finished") rest := by
        simp [List.filter_cons, hm]
      rw [hf, List.foldl_cons, List.foldl_cons]
      exact ih (statsStep acc m)
    · have hf : List.filter (fun x => x.status == "finished") (m :: rest)
          = List.filter (fun x => x.status == "finished") rest := by
        simp [List.filter_cons, hm]
      rw [hf, List.foldl_cons, statsStep_not_finished acc m (by simpa using hm)]
      exact ih acc

theorem assignRanks_length (i : Nat) (l : List TeamStats) :
    (assignRanks i l).length = l.length := by
  induction l generalizing i with
  | nil => rfl
  | cons s rest ih => simp [assignRanks, ih]

theorem assignRanks_map_rank (i : Nat) (l : List TeamStats) :
    (assignRanks i l).map (fun e => e.rank) = List.range' i l.length := by
  induction l generalizing i with
  | nil => rfl
  | cons s rest ih => simp [assignRanks, List.range'_succ, ih]

theorem assignRanks_map_pw (i : Nat) (l : List TeamStats) :
    (assignRanks i l).map (fun e => (e.points, e.wins))
      = l.map (fun s => (s.points, s.wins)) := by
  induction l generalizing i with
  | nil => rfl
  | cons s rest ih => simp [assignRanks, ih]

theorem calculateStandings_finished_only (ml : List Match) :
    calculateStandingsFromMatches (ml.filter (fun m => m.status == "finished"))
      = calculateStandingsFromMatches ml := by
  unfold calculateStandingsFromMatches
  rw [foldl_statsStep_filter]

theorem calculateStandings_ranks (ml : List Match) :
    (calculateStandingsFromMatches ml).map (fun e => e.rank)
      = List.range' 1 (calculateStandingsFromMatches ml).length := by
  unfold calculateStandingsFromMatches
  rw [assignRanks_map_rank, assignRanks_length]

theorem calculateStandings_sorted (ml : List Match) :
    (calculateStandingsFromMatches ml).Pairwise
      (fun a b => b.points < a.points ∨ (a.points = b.points ∧ b.wins ≤ a.wins)) := by
  unfold calculateStandingsFromMatches
  have hsort := pairwise_insertionSort standingsLe standingsLe_total standingsLe_trans
    (objectValuesById (ml.foldl statsStep []))
  have hsort' : (insertionSort standingsLe (objectValuesById (ml.foldl statsStep []))).Pairwise
      (fun a b => b.points < a.points ∨ (a.points = b.points ∧ b.wins ≤ a.wins)) :=
    hsort.imp (fun hab => (standingsLe_iff _ _).mp hab)
  have hmap : ((assignRanks 1
        (insertionSort standingsLe (objectValuesById (ml.foldl statsStep [])))).map
        (fun e => (e.points, e.wins))).Pairwise
      (fun p q => q.1 < p.1 ∨ (p.1 = q.1 ∧ q.2 ≤ p.2)) := by
    rw [assignRanks_map_pw, List.pairwise_map]
    exact hsort'
  exact List.pairwise_map.mp hmap

/-- C7 counterexample — ties are NOT broken by input order: in
`tieStandingsInput` the first-encountered team is Alpha (id 5), yet on a
full tie rank 1 goes to Beta (id 3), because `teamStats` is a plain JS
object with numeric keys and `Object.values` enumerates integer-like
keys in ascending order, not in insertion order. -/
def tieStandingsInput : List Match :=
  [⟨1, "finished", 0, [⟨5, "Alpha"⟩, ⟨3, "Beta"⟩], [1, 1]⟩]

theorem claim_standings_counterexample :
    calculateStandingsFromMatches tieStandingsInput
      = [⟨1, ⟨3, "Beta"⟩, 0, 0, 1, 1⟩, ⟨2, ⟨5, "Alpha"⟩, 0, 0, 1, 1⟩]
    ∧ tieStandingsInput.head?.map (fun m => m.opponents.map (fun t => t.id))
      = some [5, 3] := by
  decide

/-- The spec's standings example: A beats B 2-0, B beats C 2-1. -/
def specMatches : List Match :=
  [⟨10, "finished", 0, [⟨1, "Alpha"⟩, ⟨2, "Beta"⟩], [2, 0]⟩,
   ⟨11, "finished", 5, [⟨2, "Beta"⟩, ⟨3, "Gamma"⟩], [2, 1]⟩]

/-- C7 amended — Standings computation: only finished matches count;
per match the higher-scoring opponent gets 3 points and a win and the
other a loss, with 1 point each on an exact tie (shown on the spec's
worked example); ranks are exactly 1..N in output order; the output is
sorted by points descending then wins descending; and a full tie is
broken by ascending team id (the JS object enumeration order of
`Object.values(teamStats)`), not by input order. -/
theorem claim_standings_amended :
    (∀ ml : List Match,
        calculateStandingsFromMatches (ml.filter (fun m => m.status == "finished"))
          = calculateStandingsFromMatches ml)
      ∧ (∀ ml : List Match, (calculateStandingsFromMatches ml).map (fun e => e.rank)
          = List.range' 1 (calculateStandingsFromMatches ml).length)
      ∧ (∀ ml : List Match, (calculateStandingsFromMatches ml).Pairwise
          (fun a b => b.points < a.points ∨ (a.points = b.points ∧ b.wins ≤ a.wins)))
      ∧ calculateStandingsFromMatches specMatches
          = [⟨1, ⟨1, "Alpha"⟩, 1, 0, 3, 1⟩, ⟨2, ⟨2, "Beta"⟩, 1, 1, 3, 2⟩,
             ⟨3, ⟨3, "Gamma"⟩, 0, 1, 0, 1⟩]
      ∧ calculateStandingsFromMatches tieStandingsInput
          = [⟨1, ⟨3, "Beta"⟩, 0, 0, 1, 1⟩, ⟨2, ⟨5, "Alpha"⟩, 0, 0, 1, 1⟩] :=
  ⟨calculateStandings_finished_only, calculateStandings_ranks, calculateStandings_sorted,
    by decide, by decide⟩
